import Mathlib

/-!
Shallow embedding of the `jsonl-semantic-search` repository
(`src/indexer.js`, `src/searcher.js`) in Lean 4.

Numbers that are JavaScript floats in the source are modelled as rationals
(`ℚ`): the claims under study are about the *algebraic* shape of the
computation (which formula is computed, when denominators are guarded,
how lists are filtered/sorted/truncated), not about rounding.
`Math.sqrt` is a platform builtin, so cosine similarity takes the square
root function as an explicit parameter.

External npm collaborators (`natural`'s tokenizer and TfIdf, `stopword`,
`morpha`, `similarity`, the Hugging Face embedding API, and the query
expansion lookups into WordNet / word2vec) are not part of this
repository; they are modelled as fields of an `ExtTools` record that the
embedded functions take as a parameter.  Everything the repository itself
computes is embedded concretely.
-/

namespace JsonlSearch

/-- External collaborators used by indexer.js and searcher.js.
`stem` returns `none` when `morpha.stem` throws (the code catches and
falls back to the original token); `embedOne` returns `none` when the
Hugging Face `featureExtraction` call fails (the code catches and
substitutes a zero vector). `tfidf t i` is `natural`'s
`tfidf.tfidf(term, i)`; `expansionTerms` is the deduplicated synonym set
`expandQuery` appends to the raw query. -/
structure ExtTools where
  tokenize : String → List String
  removeStopwords : List String → List String
  stem : String → Option String
  strSimilarity : String → String → ℚ
  sqrtFn : ℚ → ℚ
  tfidf : String → Nat → ℚ
  embedOne : String → Option (List ℚ)
  expansionTerms : String → List String

/-- Character class of the JavaScript regex `\w`: ASCII letters, digits
and underscore. -/
def isWordChar (c : Char) : Bool :=
  c.isAlphanum || c = '_'

/-- The step `processed.replace(/[^\w\s]/g, ' ')` of `preprocessText`:
every character that is neither a word character nor whitespace becomes a
space. -/
def replaceSpecial (s : String) : String :=
  String.mk (s.toList.map (fun c => if isWordChar c || c.isWhitespace then c else ' '))

/-- Helper for the step `.replace(/\s+/g, ' ')`: collapse each maximal
run of whitespace characters to a single space. The Boolean flag records
whether the previous character was part of a whitespace run (so the run
emits only one space). -/
def collapseWsAux : List Char → Bool → List Char
  | [], _ => []
  | c :: cs, inRun =>
    if c.isWhitespace then
      if inRun then collapseWsAux cs true
      else ' ' :: collapseWsAux cs true
    else
      c :: collapseWsAux cs false

/-- The step `processed.replace(/\s+/g, ' ')` of `preprocessText`. -/
def collapseWs (s : String) : String :=
  String.mk (collapseWsAux s.toList false)

namespace Indexer

/-- Embedding of `preprocessText` from `src/indexer.js`: lowercase,
replace special characters with spaces, collapse whitespace, trim,
tokenize, remove stopwords, lemmatize each token with fallback to the
original token on failure, rejoin with single spaces. An empty input
returns the empty string (`if (!text) return ''`). -/
def preprocessText (tools : ExtTools) (text : String) : String :=
  if text = "" then ""
  else
    let processed := text.toLower
    let processed := ((collapseWs (replaceSpecial processed)).trim)
    let tokens := tools.tokenize processed
    let filteredTokens := tools.removeStopwords tokens
    let lemmatizedTokens := filteredTokens.map (fun token => (tools.stem token).getD token)
    String.intercalate " " lemmatizedTokens

end Indexer

namespace Searcher

/-- Embedding of `preprocessText` from `src/searcher.js` (textually the
same pipeline as the indexer's copy). -/
def preprocessText (tools : ExtTools) (text : String) : String :=
  if text = "" then ""
  else
    let processed := text.toLower
    let processed := ((collapseWs (replaceSpecial processed)).trim)
    let tokens := tools.tokenize processed
    let filteredTokens := tools.removeStopwords tokens
    let lemmatizedTokens := filteredTokens.map (fun token => (tools.stem token).getD token)
    String.intercalate " " lemmatizedTokens

end Searcher

/-- Model configuration cached by `loadModel` (both files): just the
resolved Hugging Face model id. -/
structure ModelConfig where
  modelId : String
deriving DecidableEq, Repr

/-- The `switch (modelName)` of `loadModel` (identical in
`src/indexer.js` and `src/searcher.js`): `'universal-sentence-encoder'`
maps to `'sentence-transformers/all-MiniLM-L6-v2'`, and the `default`
branch maps every other name to the same id. -/
def resolveModelId (modelName : String) : String :=
  if modelName = "universal-sentence-encoder" then
    "sentence-transformers/all-MiniLM-L6-v2"
  else
    "sentence-transformers/all-MiniLM-L6-v2"

namespace Indexer

/-- Embedding of `loadModel` from `src/indexer.js`. The `try` block only
logs and stores the resolved id in the cache, so the `catch` that would
throw `Failed to initialize embedding model` is never reached; the
function always succeeds. `Except String ModelConfig` keeps the
possibility of failure in the type, mirroring the `throw` in the source. -/
def loadModel (modelName : String) : Except String ModelConfig :=
  Except.ok { modelId := resolveModelId modelName }

end Indexer

namespace Searcher

/-- Embedding of `loadModel` from `src/searcher.js` (textually the same
as the indexer's copy). -/
def loadModel (modelName : String) : Except String ModelConfig :=
  Except.ok { modelId := resolveModelId modelName }

end Searcher

/-- Zero vector substituted for a failing embedding call: `new
Array(384).fill(0)`. -/
def zeroVector : List ℚ :=
  List.replicate 384 0

/-- Splitting of a list into consecutive chunks of `n+1` elements,
modelling the `for (let i = 0; i < texts.length; i += batchSize)` slicing
loops (`n+1` so the chunk size is positive by construction; the source
uses batch sizes 8 and 32). -/
def chunkList (n : Nat) : List α → List (List α)
  | [] => []
  | x :: xs => (x :: xs.take n) :: chunkList n (xs.drop n)
termination_by l => l.length
decreasing_by
  simp only [List.length_cons]
  exact Nat.lt_succ_of_le (List.Sublist.length_le (List.drop_sublist n xs))

theorem chunkList_flatten (n : Nat) (l : List α) : (chunkList n l).flatten = l := by
  induction l using chunkList.induct n with
  | case1 => simp [chunkList]
  | case2 x xs ih =>
    rw [chunkList]
    simp only [List.flatten_cons, List.cons_append, ih]
    rw [List.take_append_drop]

namespace Indexer

/-- Embedding of `generateEmbeddings` from `src/indexer.js`: the input is
sliced into sub-batches of 8; within a batch every text is embedded and
its result (or, when the call fails, a 384-dimension zero vector) is
written into the pre-reserved slot `embeddings[i + batchIndex]`; finally
`embeddings.filter(e => e !== undefined)` drops unwritten slots (there
are none, every slot is written). Slots are modelled as `Option`s, with
`some` marking a written slot. -/
def generateEmbeddings (embedOne : String → Option (List ℚ)) (texts : List String) :
    List (List ℚ) :=
  let slots : List (Option (List ℚ)) :=
    ((chunkList 7 texts).map
      (fun batch => batch.map (fun text => some ((embedOne text).getD zeroVector)))).flatten
  slots.filterMap id

theorem generateEmbeddings_eq_map (embedOne : String → Option (List ℚ))
    (texts : List String) :
    generateEmbeddings embedOne texts =
      texts.map (fun text => (embedOne text).getD zeroVector) := by
  show (((chunkList 7 texts).map
      (fun batch => batch.map (fun text => some ((embedOne text).getD zeroVector)))).flatten.filterMap
        id) = _
  rw [← List.map_flatten, chunkList_flatten, List.filterMap_map]
  rw [show ((id ∘ fun text => some ((embedOne text).getD zeroVector)) =
    (some ∘ fun text => ((embedOne text).getD zeroVector))) from rfl]
  rw [List.filterMap_eq_map]

end Indexer

namespace Searcher

/-- Embedding of `generateEmbedding` from `src/searcher.js`: a single
Hugging Face call whose failure is caught and replaced by the
384-dimension zero vector. -/
def generateEmbedding (tools : ExtTools) (text : String) : List ℚ :=
  (tools.embedOne text).getD zeroVector

end Searcher

/-- One line of the JSONL input as seen by the `for await (const line of
rl)` loop of `buildIndex`: the raw text of the line together with the
result of `JSON.parse(line)` — `none` when the parse throws, otherwise
the decoded object, modelled as an association list from field names to
string values (the fields the indexer reads are strings). -/
structure RawLine where
  raw : String
  parsed : Option (List (String × String))

/-- Field access `entry[field] || ''` on a decoded record: the field's
value if present, the empty string otherwise (an empty-string value and a
missing field are both falsy and both yield `''`). -/
def getField (fields : List (String × String)) (field : String) : String :=
  (fields.lookup field).getD ""

namespace Indexer

/-- One entry accumulated by the line loop of `buildIndex` in
`src/indexer.js`. -/
structure BuildEntry where
  id : Nat
  content : String
  title : String
  processedContent : String
  processedTitle : String
  originalEntry : List (String × String)
deriving DecidableEq

/-- The line loop of `buildIndex` (`src/indexer.js` lines 65-96),
parameterised by the running id counter `entryId`: a line whose trimmed
text is empty is skipped (`continue`); a line whose JSON parse throws is
caught, logged and skipped; a decoded record whose content field is
missing or empty is logged and skipped; every surviving record is pushed
with `id: entryId++`. -/
def buildEntries (tools : ExtTools) (contentField titleField : String) :
    List RawLine → Nat → List BuildEntry
  | [], _ => []
  | line :: rest, entryId =>
    if line.raw.trim = "" then
      buildEntries tools contentField titleField rest entryId
    else
      match line.parsed with
      | none => buildEntries tools contentField titleField rest entryId
      | some fields =>
        let content := getField fields contentField
        let title := getField fields titleField
        if content = "" then
          buildEntries tools contentField titleField rest entryId
        else
          { id := entryId
            content := content
            title := title
            processedContent := preprocessText tools content
            processedTitle := preprocessText tools title
            originalEntry := fields } ::
            buildEntries tools contentField titleField rest (entryId + 1)

/-- Content/title pair of a surviving record: the record survives iff its
raw line is non-blank, decodes, and has non-empty content. -/
def survivingRecord (contentField titleField : String) (line : RawLine) :
    Option (String × String) :=
  if line.raw.trim = "" then none
  else
    line.parsed.bind (fun fields =>
      if getField fields contentField = "" then none
      else some (getField fields contentField, getField fields titleField))

theorem buildEntries_ids (tools : ExtTools) (contentField titleField : String)
    (lines : List RawLine) (entryId : Nat) :
    (buildEntries tools contentField titleField lines entryId).map BuildEntry.id =
      List.range' entryId (buildEntries tools contentField titleField lines entryId).length := by
  induction lines generalizing entryId with
  | nil => simp [buildEntries]
  | cons line rest ih =>
    rw [buildEntries]
    by_cases hblank : line.raw.trim = ""
    · simp only [hblank, if_pos rfl]
      exact ih entryId
    · simp only [if_neg hblank]
      match hp : line.parsed with
      | none => exact ih entryId
      | some fields =>
        by_cases hc : getField fields contentField = ""
        · simp only [if_pos hc]
          exact ih entryId
        · simp only [if_neg hc, List.map_cons, List.length_cons, List.range'_succ]
          rw [ih (entryId + 1)]

theorem buildEntries_records (tools : ExtTools) (contentField titleField : String)
    (lines : List RawLine) (entryId : Nat) :
    (buildEntries tools contentField titleField lines entryId).map
        (fun e => (e.content, e.title)) =
      lines.filterMap (survivingRecord contentField titleField) := by
  induction lines generalizing entryId with
  | nil => simp [buildEntries]
  | cons line rest ih =>
    rw [buildEntries, List.filterMap_cons]
    by_cases hblank : line.raw.trim = ""
    · simp only [survivingRecord, hblank, if_pos rfl]
      exact ih entryId
    · simp only [survivingRecord, if_neg hblank]
      match hp : line.parsed with
      | none => simpa using ih entryId
      | some fields =>
        by_cases hc : getField fields contentField = ""
        · simp only [if_pos hc, Option.bind_some]
          simpa [hc] using ih entryId
        · simp only [if_neg hc, Option.bind_some, List.map_cons]
          rw [ih (entryId + 1)]
          simp [hc]

end Indexer

/-- One persisted document of `index.json` (`index.entries[i]`):
`titleEmbedding` is `Option` because the source stores `null` when title
boost is disabled. -/
structure IndexEntry where
  id : Nat
  title : String
  content : String
  contentEmbedding : List ℚ
  titleEmbedding : Option (List ℚ)
  originalEntry : List (String × String)
deriving DecidableEq, Inhabited

namespace Indexer

/-- The embedding-generation loop of `buildIndex` (`src/indexer.js`
lines 100-121) for one of the two text projections: entries are sliced
into batches of 32, each batch's texts go through `generateEmbeddings`,
and the per-batch results are concatenated in order. -/
def batchedEmbeddings (embedOne : String → Option (List ℚ))
    (proj : BuildEntry → String) (entries : List BuildEntry) : List (List ℚ) :=
  ((chunkList 31 entries).map
    (fun batch => generateEmbeddings embedOne (batch.map proj))).flatten

theorem batchedEmbeddings_eq_map (embedOne : String → Option (List ℚ))
    (proj : BuildEntry → String) (entries : List BuildEntry) :
    batchedEmbeddings embedOne proj entries =
      entries.map (fun e => (embedOne (proj e)).getD zeroVector) := by
  unfold batchedEmbeddings
  have h : ∀ batch : List BuildEntry,
      generateEmbeddings embedOne (batch.map proj) =
        batch.map (fun e => (embedOne (proj e)).getD zeroVector) := by
    intro batch
    rw [generateEmbeddings_eq_map, List.map_map]
    rfl
  rw [List.map_congr_left (fun batch _ => h batch), ← List.map_flatten, chunkList_flatten]

/-- Assembly of `index.entries` in `buildIndex` (`src/indexer.js` lines
100-142): content embeddings for every document; title embeddings only
when `titleBoost` is enabled; then `entries.map((entry, i) => ...)` with
`titleEmbedding: titleBoost ? Array.from(titleEmbeddings[i]) : null`. -/
def assembleEntries (embedOne : String → Option (List ℚ)) (titleBoost : Bool)
    (entries : List BuildEntry) : List IndexEntry :=
  let contentEmbeddings := batchedEmbeddings embedOne BuildEntry.processedContent entries
  let titleEmbeddings :=
    if titleBoost then batchedEmbeddings embedOne BuildEntry.processedTitle entries else []
  entries.enum.map (fun p =>
    { id := p.2.id
      title := p.2.title
      content := p.2.content
      contentEmbedding := contentEmbeddings.getD p.1 []
      titleEmbedding := if titleBoost then some (titleEmbeddings.getD p.1 []) else none
      originalEntry := p.2.originalEntry })

end Indexer

namespace Searcher

/-- Embedding of `calculateCosineSimilarity` from `src/searcher.js`: both
vectors are cut to the shorter length, then dot product over the product
of Euclidean norms, with an explicit guard returning 0 when either norm
is 0. `Math.sqrt` is passed in as `sqrtFn`. -/
def calculateCosineSimilarity (sqrtFn : ℚ → ℚ) (a b : List ℚ) : ℚ :=
  let length := min a.length b.length
  let vecA := a.take length
  let vecB := b.take length
  let dotProduct := (vecA.zip vecB).foldl (fun s p => s + p.1 * p.2) 0
  let normA := sqrtFn (vecA.foldl (fun s x => s + x * x) 0)
  let normB := sqrtFn (vecB.foldl (fun s x => s + x * x) 0)
  if normA = 0 ∨ normB = 0 then 0
  else dotProduct / (normA * normB)

/-- The metadata fields of the loaded index that `searchIndex` reads. -/
structure IndexMetadata where
  model : String
  titleBoost : Bool
deriving DecidableEq

/-- The options of `searchIndex` (with their source defaults applied by
the caller). -/
structure SearchOptions where
  limit : Nat
  threshold : ℚ
  semanticWeight : ℚ
  titleWeight : ℚ
deriving DecidableEq

/-- One element of the `results` array of `searchIndex`. -/
structure SearchResult where
  id : Nat
  title : String
  content : String
  score : ℚ
  relevance : ℚ
  semanticSimilarity : ℚ
  keywordRelevance : ℚ
  titleRelevance : ℚ
  originalEntry : List (String × String)
deriving DecidableEq, Inhabited

/-- Embedding of `expandQuery` from `src/searcher.js`: the original query
followed by the space-joined deduplicated synonym set discovered by the
external WordNet / word2vec lookups (abstracted as
`tools.expansionTerms`). -/
def expandQuery (tools : ExtTools) (query : String) : String :=
  query ++ " " ++ String.intercalate " " (tools.expansionTerms query)

/-- The term set of `searchIndex` lines 67-79: original processed query
terms unioned with the processed expanded-query terms, deduplicated in
insertion order (`[...new Set([...queryTerms, ...expandedQueryTerms])]`). -/
def allQueryTerms (tools : ExtTools) (query : String) : List String :=
  let queryTerms := (preprocessText tools query).splitOn " "
  let expandedQueryTerms := (preprocessText tools (expandQuery tools query)).splitOn " "
  (queryTerms ++ expandedQueryTerms).eraseDups

/-- The `tfidfScores` array of `searchIndex` lines 82-91: for every
document index, the sum over the term set of `tfidf.tfidf(term, i)`. -/
def tfidfScores (tools : ExtTools) (query : String) (numEntries : Nat) : List ℚ :=
  (List.range numEntries).map (fun i =>
    (allQueryTerms tools query).foldl (fun s term => s + tools.tfidf term i) 0)

/-- Maximum of a list of rationals, as computed by
`Math.max(...tfidfScores)` for a non-empty score list (for an empty list
the JavaScript spread would give `-Infinity`, but the expression is only
evaluated inside the per-document callback, so only when at least one
document exists; the `[]` branch here is arbitrary and unreachable in the
model of the search). -/
def listMax : List ℚ → ℚ
  | [] => 0
  | x :: xs => xs.foldl max x

/-- The per-document scoring callback of `searchIndex` (lines 98-142):
content cosine similarity; title cosine similarity when the entry has a
(non-null) title embedding and the index was built with title boost;
lexical title similarity on the lowercased raw strings when the title is
non-empty; tf-idf score normalized by `Math.max(...tfidfScores) || 1`;
weighted total. -/
def scoreEntry (tools : ExtTools) (meta : IndexMetadata) (opts : SearchOptions)
    (query : String) (queryEmbedding : List ℚ) (ks : List ℚ) (i : Nat)
    (entry : IndexEntry) : SearchResult :=
  let contentSimilarity :=
    calculateCosineSimilarity tools.sqrtFn queryEmbedding entry.contentEmbedding
  let titleSimilarity :=
    match entry.titleEmbedding, meta.titleBoost with
    | some titleEmbedding, true =>
      calculateCosineSimilarity tools.sqrtFn queryEmbedding titleEmbedding
    | _, _ => 0
  let titleMatchScore :=
    if entry.title = "" then 0
    else tools.strSimilarity query.toLower entry.title.toLower
  let tfidfScore := ks.getD i 0
  let normalizedTfIdf := tfidfScore / (if listMax ks = 0 then 1 else listMax ks)
  let semanticScore := contentSimilarity * opts.semanticWeight
  let keywordScore := normalizedTfIdf * (1 - opts.semanticWeight)
  let titleScore := (titleSimilarity + titleMatchScore) / 2 * opts.titleWeight
  let totalScore := semanticScore + keywordScore + titleScore
  { id := entry.id
    title := entry.title
    content := entry.content
    score := totalScore
    relevance := totalScore
    semanticSimilarity := contentSimilarity
    keywordRelevance := normalizedTfIdf
    titleRelevance := titleSimilarity
    originalEntry := entry.originalEntry }

/-- The `results` array of `searchIndex` before filtering and sorting:
`index.entries.map(async (entry, i) => ...)` (the `Promise.all` only
collects the per-entry values in order). -/
def scoredResults (tools : ExtTools) (meta : IndexMetadata) (opts : SearchOptions)
    (query : String) (entries : List IndexEntry) : List SearchResult :=
  let processedQuery := preprocessText tools query
  let queryEmbedding := generateEmbedding tools processedQuery
  let ks := tfidfScores tools query entries.length
  entries.enum.map (fun p => scoreEntry tools meta opts query queryEmbedding ks p.1 p.2)

/-- Stable insertion of a result into a list already sorted by descending
score: the new element goes in front of the first element whose score it
matches or exceeds. -/
def insertDesc (x : SearchResult) : List SearchResult → List SearchResult
  | [] => [x]
  | y :: ys => if y.score ≤ x.score then x :: y :: ys else y :: insertDesc x ys

/-- Stable sort by descending score, the unique stable-sort result of the
JavaScript comparator `(a, b) => b.score - a.score` (Array.prototype.sort
is stable, and stable sorting under a total preorder has a unique
output). -/
def sortByScoreDesc : List SearchResult → List SearchResult
  | [] => []
  | x :: xs => insertDesc x (sortByScoreDesc xs)

/-- Ranking order claimed by the specification: strictly greater score
first, ties broken by ascending document id. -/
def resultOrder (a b : SearchResult) : Prop :=
  b.score < a.score ∨ (a.score = b.score ∧ a.id < b.id)

theorem mem_insertDesc {z x : SearchResult} {l : List SearchResult} :
    z ∈ insertDesc x l ↔ z = x ∨ z ∈ l := by
  induction l with
  | nil => simp [insertDesc]
  | cons y ys ih =>
    rw [insertDesc]
    by_cases h : y.score ≤ x.score
    · simp [h]
    · simp only [if_neg h, List.mem_cons, ih]
      tauto

theorem mem_sortByScoreDesc {z : SearchResult} {l : List SearchResult} :
    z ∈ sortByScoreDesc l ↔ z ∈ l := by
  induction l with
  | nil => simp [sortByScoreDesc]
  | cons x xs ih =>
    rw [sortByScoreDesc, mem_insertDesc]
    simp [ih]

theorem pairwise_score_of_resultOrder {l : List SearchResult}
    (h : l.Pairwise resultOrder) : l.Pairwise (fun a b => b.score ≤ a.score) :=
  h.imp (fun hab => by
    rcases hab with h1 | ⟨h2, _⟩
    · exact le_of_lt h1
    · exact le_of_eq h2.symm)

theorem insertDesc_pairwise {x : SearchResult} {l : List SearchResult}
    (hl : l.Pairwise resultOrder) (hx : ∀ y ∈ l, x.id < y.id) :
    (insertDesc x l).Pairwise resultOrder := by
  induction l with
  | nil => simp [insertDesc, resultOrder]
  | cons y ys ih =>
    rw [List.pairwise_cons] at hl
    obtain ⟨hy, hys⟩ := hl
    rw [insertDesc]
    by_cases h : y.score ≤ x.score
    · rw [if_pos h]
      refine List.Pairwise.cons ?_ (List.Pairwise.cons hy hys)
      intro z hz
      rcases List.mem_cons.mp hz with rfl | hz
      · rcases lt_or_eq_of_le h with hlt | heq
        · exact Or.inl hlt
        · exact Or.inr ⟨heq.symm, hx z (List.mem_cons_self _ _)⟩
      · have hyz := hy z hz
        have hzy : z.score ≤ y.score := by
          rcases hyz with h1 | ⟨h2, _⟩
          · exact le_of_lt h1
          · exact le_of_eq h2.symm
        rcases lt_or_eq_of_le (le_trans hzy h) with hlt | heq
        · exact Or.inl hlt
        · exact Or.inr ⟨heq.symm, hx z (List.mem_cons_of_mem y hz)⟩
    · rw [if_neg h]
      refine List.Pairwise.cons ?_ (ih hys (fun z hz => hx z (List.mem_cons_of_mem y hz)))
      intro z hz
      rcases mem_insertDesc.mp hz with rfl | hz
      · exact Or.inl (lt_of_not_le h)
      · exact hy z hz

theorem sortByScoreDesc_pairwise {l : List SearchResult}
    (hl : l.Pairwise (fun a b => a.id < b.id)) :
    (sortByScoreDesc l).Pairwise resultOrder := by
  induction l with
  | nil => simp [sortByScoreDesc]
  | cons x xs ih =>
    rw [List.pairwise_cons] at hl
    obtain ⟨hx, hxs⟩ := hl
    rw [sortByScoreDesc]
    exact insertDesc_pairwise (ih hxs)
      (fun y hy => hx y (mem_sortByScoreDesc.mp hy))

/-- Embedding of the result assembly of `searchIndex`
(`src/searcher.js` lines 98-148), starting from the loaded index:
score every entry, keep results with `relevance >= threshold`, sort by
descending score, truncate with `slice(0, limit)`. -/
def searchIndex (tools : ExtTools) (meta : IndexMetadata) (opts : SearchOptions)
    (query : String) (entries : List IndexEntry) : List SearchResult :=
  let results := scoredResults tools meta opts query entries
  ((sortByScoreDesc (results.filter (fun r => opts.threshold ≤ r.relevance))).take opts.limit)

theorem foldl_max_init_le (l : List ℚ) (a : ℚ) : a ≤ l.foldl max a := by
  induction l generalizing a with
  | nil => exact le_refl a
  | cons b l ih => exact le_trans (le_max_left a b) (ih (max a b))

theorem le_foldl_max_of_mem {x : ℚ} {l : List ℚ} (a : ℚ) (h : x ∈ l) :
    x ≤ l.foldl max a := by
  induction l generalizing a with
  | nil => exact absurd h (List.not_mem_nil x)
  | cons b l ih =>
    rcases List.mem_cons.mp h with rfl | h
    · exact le_trans (le_max_right a x) (foldl_max_init_le l (max a x))
    · exact ih (max a b) h

theorem foldl_max_mem (l : List ℚ) (a : ℚ) : l.foldl max a ∈ a :: l := by
  induction l generalizing a with
  | nil => exact List.mem_singleton_self a
  | cons b l ih =>
    have h := ih (max a b)
    rcases List.mem_cons.mp h with heq | hmem
    · rcases max_choice a b with hab | hab
      · rw [List.foldl_cons, heq, hab]; exact List.mem_cons_self _ _
      · rw [List.foldl_cons, heq, hab]
        exact List.mem_cons_of_mem _ (List.mem_cons_self _ _)
    · exact List.mem_cons_of_mem _ (List.mem_cons_of_mem _ hmem)

theorem le_listMax {x : ℚ} {l : List ℚ} (hx : x ∈ l) : x ≤ listMax l := by
  match l with
  | [] => exact absurd hx (List.not_mem_nil x)
  | y :: ys =>
    rcases List.mem_cons.mp hx with rfl | h
    · exact foldl_max_init_le ys x
    · exact le_foldl_max_of_mem y h

theorem listMax_mem {l : List ℚ} (h : l ≠ []) : listMax l ∈ l := by
  match l with
  | [] => exact absurd rfl h
  | y :: ys => exact foldl_max_mem ys y

theorem tfidfScores_length (tools : ExtTools) (query : String) (numEntries : Nat) :
    (tfidfScores tools query numEntries).length = numEntries := by
  simp [tfidfScores]

theorem scoredResults_length (tools : ExtTools) (meta : IndexMetadata)
    (opts : SearchOptions) (query : String) (entries : List IndexEntry) :
    (scoredResults tools meta opts query entries).length = entries.length := by
  simp [scoredResults]

theorem scoredResults_getD (tools : ExtTools) (meta : IndexMetadata)
    (opts : SearchOptions) (query : String) (entries : List IndexEntry)
    {i : Nat} (hi : i < entries.length) :
    (scoredResults tools meta opts query entries).getD i default =
      scoreEntry tools meta opts query
        (generateEmbedding tools (preprocessText tools query))
        (tfidfScores tools query entries.length) i (entries.getD i default) := by
  have hlen : i < (scoredResults tools meta opts query entries).length := by
    rw [scoredResults_length]; exact hi
  rw [List.getD_eq_getElem _ _ hlen, List.getD_eq_getElem _ _ hi]
  unfold scoredResults
  simp [List.getElem_enum]

theorem scoredResults_map_id (tools : ExtTools) (meta : IndexMetadata)
    (opts : SearchOptions) (query : String) (entries : List IndexEntry) :
    (scoredResults tools meta opts query entries).map SearchResult.id =
      entries.map IndexEntry.id := by
  unfold scoredResults
  rw [List.map_map]
  rw [show (SearchResult.id ∘ fun p : Nat × IndexEntry =>
      scoreEntry tools meta opts query
        (generateEmbedding tools (preprocessText tools query))
        (tfidfScores tools query entries.length) p.1 p.2) =
    (IndexEntry.id ∘ Prod.snd) from rfl]
  rw [← List.map_map, List.enum_map_snd]

theorem scoredResults_keywordRelevance (tools : ExtTools) (meta : IndexMetadata)
    (opts : SearchOptions) (query : String) (entries : List IndexEntry)
    {i : Nat} (hi : i < entries.length) :
    ((scoredResults tools meta opts query entries).getD i default).keywordRelevance =
      (tfidfScores tools query entries.length).getD i 0 /
        (if listMax (tfidfScores tools query entries.length) = 0 then 1
         else listMax (tfidfScores tools query entries.length)) := by
  rw [scoredResults_getD tools meta opts query entries hi]
  rfl

end Searcher

section Claims

open Indexer Searcher

/-- Concrete external-collaborator behaviour used to exercise the model
on closed inputs: an empty tokenizer, identity stopword removal, a
always-failing lemmatizer and embedding provider, all-zero similarity
and tf-idf scores, no expansion terms. -/
def demoTools : ExtTools where
  tokenize := fun _ => []
  removeStopwords := fun l => l
  stem := fun _ => none
  strSimilarity := fun _ _ => 0
  sqrtFn := fun _ => 0
  tfidf := fun _ _ => 0
  embedOne := fun _ => none
  expansionTerms := fun _ => []

/-- C3: the text-normalization function applied at build time
(`preprocessText` of `src/indexer.js`) and the one applied at query time
(`preprocessText` of `src/searcher.js`) are extensionally equal: for
every input string (and every behaviour of the shared external
tokenizer/stopword/lemmatizer collaborators) they produce the same
output. -/
theorem claim3_shared_normalization (tools : ExtTools) (text : String) :
    Indexer.preprocessText tools text = Searcher.preprocessText tools text := rfl

/-- C4: during index construction, an input line that is blank or fails
to decode, and a decoded record whose content field is missing or empty,
is skipped without consuming a document id: the ids of the indexed
documents are exactly `0, 1, ..., n-1` in input order, and the indexed
documents are exactly the surviving records. -/
theorem claim4_dense_ids (tools : ExtTools) (contentField titleField : String)
    (lines : List RawLine) :
    (buildEntries tools contentField titleField lines 0).map BuildEntry.id =
      List.range (buildEntries tools contentField titleField lines 0).length ∧
    (buildEntries tools contentField titleField lines 0).map
        (fun e => (e.content, e.title)) =
      lines.filterMap (survivingRecord contentField titleField) := by
  constructor
  · rw [buildEntries_ids, List.range_eq_range']
  · exact buildEntries_records tools contentField titleField lines 0

/-- C6 counterexample: loading a model under an unresolvable logical name
does not fail — the `default` branch of the `switch` in `loadModel` (both
files) silently resolves every unknown name to the same provider id, and
the `catch` that would raise the initialization failure is dead code. -/
theorem claim6_counterexample :
    Indexer.loadModel "no-such-model" =
      Except.ok { modelId := "sentence-transformers/all-MiniLM-L6-v2" } ∧
    Searcher.loadModel "no-such-model" =
      Except.ok { modelId := "sentence-transformers/all-MiniLM-L6-v2" } :=
  ⟨rfl, rfl⟩

/-- C6 amended: model-name resolution maps every logical model name —
known or unknown — to the provider id
`sentence-transformers/all-MiniLM-L6-v2`, and loading always succeeds;
no model name produces a `ModelInitializationFailure`. -/
theorem claim6_resolution_total (modelName : String) :
    Indexer.loadModel modelName =
      Except.ok { modelId := "sentence-transformers/all-MiniLM-L6-v2" } ∧
    Searcher.loadModel modelName =
      Except.ok { modelId := "sentence-transformers/all-MiniLM-L6-v2" } := by
  unfold Indexer.loadModel Searcher.loadModel resolveModelId
  constructor <;> split <;> rfl

/-- C7: batch embedding generation returns one vector per input text, in
input order; an individually failing text (modelled by `embedOne`
returning `none`) never propagates an error, and a 384-dimension zero
vector is substituted at its position. -/
theorem claim7_batch_embeddings (embedOne : String → Option (List ℚ))
    (texts : List String) :
    Indexer.generateEmbeddings embedOne texts =
      texts.map (fun text =>
        match embedOne text with
        | some v => v
        | none => List.replicate 384 0) := by
  rw [generateEmbeddings_eq_map]
  refine List.map_congr_left (fun t _ => ?_)
  cases embedOne t <;> rfl

/-- C8 counterexample: the underscore is neither alphanumeric nor
whitespace, yet the replacement step `replace(/[^\w\s]/g, ' ')` keeps it
(`\w` matches `_`), so it survives into the output. -/
theorem claim8_counterexample :
    ¬ (∀ s : String, ∀ c ∈ (replaceSpecial s).toList,
        c.isAlphanum = true ∨ c.isWhitespace = true) := by
  intro h
  have h2 := h "_" '_' (by decide)
  revert h2
  decide

/-- C8 amended: the replacement step replaces every character that is
neither a word character (alphanumeric or underscore) nor whitespace
with a space, so every character surviving it is a word character or
whitespace; underscores, although not alphanumeric, survive. -/
theorem claim8_word_or_space (s : String) (c : Char)
    (hc : c ∈ (replaceSpecial s).toList) :
    isWordChar c = true ∨ c.isWhitespace = true := by
  unfold replaceSpecial at hc
  rcases List.mem_map.mp hc with ⟨c0, _, heq⟩
  by_cases h : (isWordChar c0 || c0.isWhitespace) = true
  · rw [if_pos h] at heq
    subst heq
    exact Bool.or_eq_true_iff.mp h
  · rw [if_neg h] at heq
    subst heq
    right
    decide

/-- C8 amended, witness: applying the amended claim to the input string
`"a_!"` and its surviving character `'_'`. -/
theorem claim8_word_or_space_witness :
    '_' ∈ (replaceSpecial "a_!").toList ∧
      (isWordChar '_' = true ∨ '_'.isWhitespace = true) :=
  ⟨by decide, claim8_word_or_space "a_!" '_' (by decide)⟩

/-- C5 counterexample: building with title boost enabled an index over a
single record whose title is empty (content `"x"`, no title field, every
embedding call failing) produces a persisted document that still carries
a (non-null) title embedding, although its title is empty — the source
stores `titleBoost ? Array.from(titleEmbeddings[i]) : null` without ever
checking whether the title is empty. -/
theorem claim5_counterexample :
    ∃ p ∈ assembleEntries (fun _ => none) true
        [{ id := 0, content := "x", title := "", processedContent := "x",
           processedTitle := "", originalEntry := [("content", "x")] }],
      p.titleEmbedding ≠ none ∧ p.title = "" := by
  unfold assembleEntries
  exact ⟨_, List.mem_map_of_mem _ (List.mem_singleton_self _),
    fun h => Option.noConfusion h, rfl⟩

/-- C5 amended: in every persisted index, a document carries a
titleEmbedding exactly when title-boost is enabled — independently of
whether its title is empty; with title-boost enabled, a document with an
empty title still has a title embedding (the embedding of its empty
processed title, a zero vector when the provider call fails). -/
theorem claim5_title_embedding_iff_boost (embedOne : String → Option (List ℚ))
    (titleBoost : Bool) (entries : List BuildEntry) (p : IndexEntry)
    (hp : p ∈ assembleEntries embedOne titleBoost entries) :
    p.titleEmbedding ≠ none ↔ titleBoost = true := by
  unfold assembleEntries at hp
  rcases List.mem_map.mp hp with ⟨q, _, rfl⟩
  cases titleBoost with
  | false => simp
  | true => simp

/-- C5 amended, witness: with title boost disabled, the single persisted
document of a one-record index has no title embedding. -/
theorem claim5_title_embedding_iff_boost_witness :
    (⟨0, "t", "x", zeroVector, none, [("content", "x")]⟩ : IndexEntry) ∈
        assembleEntries (fun _ => none) false
          [{ id := 0, content := "x", title := "t", processedContent := "x",
             processedTitle := "t", originalEntry := [("content", "x")] }] ∧
      ((⟨0, "t", "x", zeroVector, none, [("content", "x")]⟩ : IndexEntry).titleEmbedding ≠
          none ↔ false = true) := by
  have hmem : (⟨0, "t", "x", zeroVector, none, [("content", "x")]⟩ : IndexEntry) ∈
      assembleEntries (fun _ => none) false
        [{ id := 0, content := "x", title := "t", processedContent := "x",
           processedTitle := "t", originalEntry := [("content", "x")] }] := by
    unfold assembleEntries
    refine List.mem_map.mpr ⟨((0 : Nat),
      { id := 0, content := "x", title := "t", processedContent := "x",
        processedTitle := "t", originalEntry := [("content", "x")] }),
      List.mem_singleton_self _, ?_⟩
    rw [batchedEmbeddings_eq_map]
    rfl
  exact ⟨hmem, claim5_title_embedding_iff_boost _ _ _ _ hmem⟩

/-- Aggregate score as the specification states it, computed for the
document at position `i`: `contentSim*semanticWeight +
normalizedKeyword*(1-semanticWeight) + ((titleSim + titleStringSim)/2) *
titleWeight`, where `titleSim` is 0 unless the document has a title
embedding and title-boost is enabled, and `titleStringSim` is 0 when the
title is empty. -/
def specAggregate (tools : ExtTools) (meta : IndexMetadata) (opts : SearchOptions)
    (query : String) (entries : List IndexEntry) (i : Nat) : ℚ :=
  let d := entries.getD i default
  let queryEmbedding := generateEmbedding tools (Searcher.preprocessText tools query)
  let contentSim := calculateCosineSimilarity tools.sqrtFn queryEmbedding d.contentEmbedding
  let titleSim :=
    if d.titleEmbedding.isSome = true ∧ meta.titleBoost = true then
      calculateCosineSimilarity tools.sqrtFn queryEmbedding (d.titleEmbedding.getD [])
    else 0
  let titleStringSim :=
    if d.title = "" then 0 else tools.strSimilarity query.toLower d.title.toLower
  let ks := tfidfScores tools query entries.length
  let keywordMax := listMax ks
  let normalizedKeyword := ks.getD i 0 / (if keywordMax = 0 then 1 else keywordMax)
  contentSim * opts.semanticWeight + normalizedKeyword * (1 - opts.semanticWeight) +
    (titleSim + titleStringSim) / 2 * opts.titleWeight

/-- C1: for every document scored during a search, the aggregate score
equals the specification formula `contentSim*semanticWeight +
normalizedKeyword*(1-semanticWeight) +
((titleSim+titleStringSim)/2)*titleWeight`, with `titleSim` 0 unless the
document has a title embedding and title-boost is enabled, and
`titleStringSim` 0 when the title is empty. -/
theorem claim1_aggregate_formula (tools : ExtTools) (meta : IndexMetadata)
    (opts : SearchOptions) (query : String) (entries : List IndexEntry)
    (i : Nat) (hi : i < entries.length) :
    ((scoredResults tools meta opts query entries).getD i default).score =
      specAggregate tools meta opts query entries i := by
  rw [scoredResults_getD tools meta opts query entries hi]
  unfold scoreEntry specAggregate
  generalize entries.getD i default = d
  cases hte : d.titleEmbedding <;>
    cases htb : meta.titleBoost <;>
      simp only [hte, htb, Option.isSome_none, Option.isSome_some, Option.getD_some,
        Bool.false_eq_true, and_false, and_true, if_false, if_true, and_self,
        Bool.true_eq_false, false_and, true_and, ite_false, ite_true]

/-- C1 witness: the formula instantiated at a one-document index and
concrete collaborators. -/
theorem claim1_aggregate_formula_witness :
    (0 : Nat) < ([⟨0, "t", "c", [1], some [1], []⟩] : List IndexEntry).length ∧
    ((scoredResults demoTools ⟨"universal-sentence-encoder", true⟩ ⟨10, 0, 7/10, 3/10⟩
        "q" [⟨0, "t", "c", [1], some [1], []⟩]).getD 0 default).score =
      specAggregate demoTools ⟨"universal-sentence-encoder", true⟩ ⟨10, 0, 7/10, 3/10⟩
        "q" [⟨0, "t", "c", [1], some [1], []⟩] 0 :=
  ⟨by decide,
    claim1_aggregate_formula demoTools ⟨"universal-sentence-encoder", true⟩
      ⟨10, 0, 7/10, 3/10⟩ "q" [⟨0, "t", "c", [1], some [1], []⟩] 0 (by decide)⟩

/-- C9: for a query over an index with at least one document, under the
(true of tf-idf) assumption that all raw keyword scores are nonnegative:
each document's normalized keyword score is its raw score divided by the
query-wide maximum, or 0 for every document when that maximum is 0; the
normalizing denominator is never 0 (the modelled meaning of "never
NaN"); every normalized score is at most 1; and all normalized scores
are 0 exactly when all raw scores are 0. -/
theorem claim9_keyword_normalization (tools : ExtTools) (meta : IndexMetadata)
    (opts : SearchOptions) (query : String) (entries : List IndexEntry)
    (hne : entries ≠ [])
    (hnn : ∀ x ∈ tfidfScores tools query entries.length, 0 ≤ x) :
    (∀ i, i < entries.length →
      ((scoredResults tools meta opts query entries).getD i default).keywordRelevance =
        if listMax (tfidfScores tools query entries.length) = 0 then 0
        else (tfidfScores tools query entries.length).getD i 0 /
          listMax (tfidfScores tools query entries.length)) ∧
    (if listMax (tfidfScores tools query entries.length) = 0 then (1 : ℚ)
     else listMax (tfidfScores tools query entries.length)) ≠ 0 ∧
    (∀ i, i < entries.length →
      ((scoredResults tools meta opts query entries).getD i default).keywordRelevance ≤ 1) ∧
    ((∀ i, i < entries.length →
        ((scoredResults tools meta opts query entries).getD i default).keywordRelevance = 0) ↔
      (∀ x ∈ tfidfScores tools query entries.length, x = 0)) := by
  have hksl : (tfidfScores tools query entries.length).length = entries.length :=
    tfidfScores_length tools query entries.length
  have hksne : tfidfScores tools query entries.length ≠ [] := by
    intro h
    rw [h] at hksl
    exact hne (List.length_eq_zero.mp hksl.symm)
  have hgetD_mem : ∀ i, i < entries.length →
      (tfidfScores tools query entries.length).getD i 0 ∈
        tfidfScores tools query entries.length := by
    intro i hi
    have hi2 : i < (tfidfScores tools query entries.length).length := by
      rw [hksl]; exact hi
    rw [List.getD_eq_getElem _ _ hi2]
    exact List.getElem_mem hi2
  have hall0 : listMax (tfidfScores tools query entries.length) = 0 →
      ∀ x ∈ tfidfScores tools query entries.length, x = 0 := by
    intro hm x hx
    exact le_antisymm (hm ▸ le_listMax hx) (hnn x hx)
  have hpos : listMax (tfidfScores tools query entries.length) ≠ 0 →
      0 < listMax (tfidfScores tools query entries.length) := by
    intro hm
    exact lt_of_le_of_ne (hnn _ (listMax_mem hksne)) (Ne.symm hm)
  have hdenom : (if listMax (tfidfScores tools query entries.length) = 0 then (1 : ℚ)
      else listMax (tfidfScores tools query entries.length)) ≠ 0 := by
    by_cases hm : listMax (tfidfScores tools query entries.length) = 0
    · rw [if_pos hm]; exact one_ne_zero
    · rw [if_neg hm]; exact hm
  have hnorm : ∀ i, i < entries.length →
      ((scoredResults tools meta opts query entries).getD i default).keywordRelevance =
        (tfidfScores tools query entries.length).getD i 0 /
          (if listMax (tfidfScores tools query entries.length) = 0 then 1
           else listMax (tfidfScores tools query entries.length)) := by
    intro i hi
    exact scoredResults_keywordRelevance tools meta opts query entries hi
  refine ⟨?_, hdenom, ?_, ?_⟩
  · intro i hi
    rw [hnorm i hi]
    by_cases hm : listMax (tfidfScores tools query entries.length) = 0
    · rw [if_pos hm, if_pos hm, hall0 hm _ (hgetD_mem i hi), zero_div]
    · rw [if_neg hm, if_neg hm]
  · intro i hi
    rw [hnorm i hi]
    by_cases hm : listMax (tfidfScores tools query entries.length) = 0
    · rw [if_pos hm, hall0 hm _ (hgetD_mem i hi), zero_div]
      exact zero_le_one
    · rw [if_neg hm]
      exact (div_le_one (hpos hm)).mpr (le_listMax (hgetD_mem i hi))
  · constructor
    · intro hall x hx
      rcases List.mem_iff_getElem.mp hx with ⟨i, hilt, hxi⟩
      have hi : i < entries.length := by rw [← hksl]; exact hilt
      have h := hall i hi
      rw [hnorm i hi, List.getD_eq_getElem _ _ hilt, hxi] at h
      rcases div_eq_zero_iff.mp h with h0 | h0
      · exact h0
      · exact absurd h0 hdenom
    · intro hzero i hi
      rw [hnorm i hi, hzero _ (hgetD_mem i hi), zero_div]

/-- C9 witness: one document, all external tf-idf scores 0. -/
theorem claim9_keyword_normalization_witness :
    (([⟨0, "t", "c", [1], none, []⟩] : List IndexEntry) ≠ [] ∧
      ∀ x ∈ tfidfScores demoTools "q"
        ([⟨0, "t", "c", [1], none, []⟩] : List IndexEntry).length, 0 ≤ x) ∧
    ((∀ i, i < ([⟨0, "t", "c", [1], none, []⟩] : List IndexEntry).length →
      ((scoredResults demoTools ⟨"universal-sentence-encoder", false⟩ ⟨10, 0, 7/10, 3/10⟩
          "q" [⟨0, "t", "c", [1], none, []⟩]).getD i default).keywordRelevance =
        if listMax (tfidfScores demoTools "q" 1) = 0 then 0
        else (tfidfScores demoTools "q" 1).getD i 0 / listMax (tfidfScores demoTools "q" 1)) ∧
    (if listMax (tfidfScores demoTools "q" 1) = 0 then (1 : ℚ)
     else listMax (tfidfScores demoTools "q" 1)) ≠ 0 ∧
    (∀ i, i < ([⟨0, "t", "c", [1], none, []⟩] : List IndexEntry).length →
      ((scoredResults demoTools ⟨"universal-sentence-encoder", false⟩ ⟨10, 0, 7/10, 3/10⟩
          "q" [⟨0, "t", "c", [1], none, []⟩]).getD i default).keywordRelevance ≤ 1) ∧
    ((∀ i, i < ([⟨0, "t", "c", [1], none, []⟩] : List IndexEntry).length →
        ((scoredResults demoTools ⟨"universal-sentence-encoder", false⟩ ⟨10, 0, 7/10, 3/10⟩
            "q" [⟨0, "t", "c", [1], none, []⟩]).getD i default).keywordRelevance = 0) ↔
      (∀ x ∈ tfidfScores demoTools "q" 1, x = 0))) := by
  have hfold : ∀ (L : List String) (q : ℚ) (i : Nat),
      L.foldl (fun s term => s + demoTools.tfidf term i) q = q := by
    intro L
    induction L with
    | nil => intro q i; rfl
    | cons t ts ih =>
      intro q i
      show ts.foldl _ (q + demoTools.tfidf t i) = q
      rw [show demoTools.tfidf t i = 0 from rfl, add_zero]
      exact ih q i
  have hnn : ∀ x ∈ tfidfScores demoTools "q"
      ([⟨0, "t", "c", [1], none, []⟩] : List IndexEntry).length, 0 ≤ x := by
    intro x hx
    unfold tfidfScores at hx
    rcases List.mem_map.mp hx with ⟨i, _, rfl⟩
    rw [hfold]
  exact ⟨⟨by decide, hnn⟩,
    claim9_keyword_normalization demoTools ⟨"universal-sentence-encoder", false⟩
      ⟨10, 0, 7/10, 3/10⟩ "q" [⟨0, "t", "c", [1], none, []⟩] (by decide) hnn⟩

/-- C2: the returned result list contains no result below the relevance
threshold, is sorted in descending order of aggregate score with equal
scores in ascending document-id order (assuming, as the indexer
guarantees, that the loaded entries have strictly increasing ids), and
has length at most `limit`. -/
theorem claim2_result_ranking (tools : ExtTools) (meta : IndexMetadata)
    (opts : SearchOptions) (query : String) (entries : List IndexEntry)
    (hids : entries.Pairwise (fun a b => a.id < b.id)) :
    (∀ r ∈ Searcher.searchIndex tools meta opts query entries,
      opts.threshold ≤ r.relevance) ∧
    (Searcher.searchIndex tools meta opts query entries).Pairwise resultOrder ∧
    (Searcher.searchIndex tools meta opts query entries).length ≤ opts.limit := by
  have h1 : (entries.map IndexEntry.id).Pairwise (· < ·) :=
    List.pairwise_map.mpr hids
  have h2 : ((scoredResults tools meta opts query entries).map SearchResult.id).Pairwise
      (· < ·) := by
    rw [scoredResults_map_id]; exact h1
  have hpw : (scoredResults tools meta opts query entries).Pairwise
      (fun a b => a.id < b.id) := List.pairwise_map.mp h2
  have hfil := hpw.filter (fun r => decide (opts.threshold ≤ r.relevance))
  have hsorted := sortByScoreDesc_pairwise hfil
  have hsi : Searcher.searchIndex tools meta opts query entries =
      (sortByScoreDesc ((scoredResults tools meta opts query entries).filter
        (fun r => decide (opts.threshold ≤ r.relevance)))).take opts.limit := rfl
  refine ⟨?_, ?_, ?_⟩
  · intro r hr
    rw [hsi] at hr
    have hr1 := List.mem_of_mem_take hr
    have hr2 := mem_sortByScoreDesc.mp hr1
    have hr3 := List.mem_filter.mp hr2
    exact of_decide_eq_true hr3.2
  · rw [hsi]
    exact hsorted.sublist (List.take_sublist _ _)
  · rw [hsi]
    exact List.length_take_le _ _

/-- C2 witness: a concrete two-document search. -/
theorem claim2_result_ranking_witness :
    (([⟨0, "t", "c", [1], none, []⟩, ⟨1, "", "d", [1], none, []⟩] :
        List IndexEntry).Pairwise (fun a b => a.id < b.id)) ∧
    ((∀ r ∈ Searcher.searchIndex demoTools ⟨"universal-sentence-encoder", false⟩
        ⟨10, 0, 7/10, 3/10⟩ "q"
        [⟨0, "t", "c", [1], none, []⟩, ⟨1, "", "d", [1], none, []⟩],
      (0 : ℚ) ≤ r.relevance) ∧
    (Searcher.searchIndex demoTools ⟨"universal-sentence-encoder", false⟩
        ⟨10, 0, 7/10, 3/10⟩ "q"
        [⟨0, "t", "c", [1], none, []⟩, ⟨1, "", "d", [1], none, []⟩]).Pairwise resultOrder ∧
    (Searcher.searchIndex demoTools ⟨"universal-sentence-encoder", false⟩
        ⟨10, 0, 7/10, 3/10⟩ "q"
        [⟨0, "t", "c", [1], none, []⟩, ⟨1, "", "d", [1], none, []⟩]).length ≤ 10) :=
  ⟨by decide,
    claim2_result_ranking demoTools ⟨"universal-sentence-encoder", false⟩
      ⟨10, 0, 7/10, 3/10⟩ "q"
      [⟨0, "t", "c", [1], none, []⟩, ⟨1, "", "d", [1], none, []⟩] (by decide)⟩

/-- C10: searching a successfully loaded index whose document list is
empty returns the empty result list (and, the model being total, cannot
throw) for every query, option set and external-collaborator behaviour:
the keyword-maximum expression is only evaluated inside the per-document
callback, which never runs. -/
theorem claim10_empty_index (tools : ExtTools) (meta : IndexMetadata)
    (opts : SearchOptions) (query : String) :
    Searcher.searchIndex tools meta opts query [] = [] := by
  show (sortByScoreDesc (List.filter _ (scoredResults tools meta opts query []))).take
      opts.limit = []
  rw [show scoredResults tools meta opts query [] = [] from rfl]
  rw [show List.filter _ ([] : List SearchResult) = [] from rfl]
  rw [show sortByScoreDesc [] = [] from rfl, List.take_nil]

end Claims

end JsonlSearch
